import Mathlib

/-!
# Verification of the `bookshelf` application core

A shallow embedding, in Lean 4, of the parts of the `bookshelf` Rust
application (an iced-based desktop book manager) that its design
specification talks about:

* the sort engine `sort_books` (`src/ui/utils.rs`, `src/ui/mod.rs`),
* the search/filter predicate of `Message::PerformSearch`
  (`src/ui/state.rs`),
* the book message handlers `handle_save_book`, `handle_books_loaded`,
  `handle_book_deleted` (`src/ui/book_view.rs`),
* the `SearchableDropdown` widget state
  (`src/ui/components/searchable_dropdown.rs`),
* the data model (`src/models.rs`, `src/ui/messages.rs`).

Modelling conventions:

* Rust `Vec<T>` becomes `List T`; `Option<T>` becomes `Option T`;
  `Result<T, String>` becomes `Except String T`.
* `f32` is modelled by `F32` below: an exact rational value, an infinity
  of either sign, or NaN.  The operations the program uses
  (`partial_cmp`, `==`, `parse::<f32>`, `to_string`) are modelled on
  this type.  Float rounding is not modelled: parsed decimal literals
  are kept exact.  On every concrete value appearing in the theorems
  below the modelled operations agree with the Rust ones.
* `chrono::NaiveDateTime` is modelled as a `Nat` timestamp; the parser
  for the fixed `"%Y-%m-%d %H:%M:%S"` pattern encodes the six validated
  fields into a `Nat` strictly monotonically with respect to
  chronological order.
* Rust strings are compared byte-lexicographically; for UTF-8 this is
  exactly codepoint-lexicographic comparison, which is what `charsCmp`
  below implements on `List Char`.  `to_lowercase` is modelled by
  `Char.toLower` (ASCII lowering; all concrete strings in the theorems
  are ASCII).
* `Vec::sort_by` is a stable sort driven by an `Ordering`-valued
  comparator; it is modelled by `List.insertionSort` (also stable) on
  the relation "comparator result `isLE`", which determines the same
  output for every comparator the program uses.
* An iced `Task` produced by a handler is modelled as a `List Effect`
  of the persistence requests the handler schedules; `Task::none()` is
  the empty list.
-/

namespace Bookshelf

/-! ## Characters and strings -/

/-- Lowered characters of a string: models `str::to_lowercase` (ASCII). -/
def lowerChars (s : String) : List Char :=
  s.data.map Char.toLower

/-- Byte-lexicographic comparison of strings, models `Ord for String` in
Rust (UTF-8 byte order coincides with codepoint order). -/
def charsCmp : List Char → List Char → Ordering
  | [], [] => .eq
  | [], _ :: _ => .lt
  | _ :: _, [] => .gt
  | a :: x, b :: y =>
    match compare a.toNat b.toNat with
    | .eq => charsCmp x y
    | o => o

/-- Models `str::starts_with`: `hasPref p l` is true when `p` is a
prefix of `l`. -/
def hasPref : List Char → List Char → Bool
  | [], _ => true
  | _ :: _, [] => false
  | a :: p, b :: l => a == b && hasPref p l

/-- Models `str::contains` (substring containment). -/
def containsSub (text pat : List Char) : Bool :=
  match text with
  | [] => hasPref pat []
  | _ :: t => hasPref pat text || containsSub t pat

/-! ## The `f32` model -/

/-- Model of `f32`: an exact rational, a signed infinity, or NaN. -/
inductive F32 where
  | nan : F32
  | inf (neg : Bool) : F32
  | val (q : ℚ) : F32
deriving DecidableEq

/-- Models `f32::partial_cmp`: `None` exactly when one side is NaN. -/
def F32.pcmp : F32 → F32 → Option Ordering
  | .nan, _ => none
  | _, .nan => none
  | .inf true, .inf true => some .eq
  | .inf true, _ => some .lt
  | .inf false, .inf false => some .eq
  | .inf false, _ => some .gt
  | .val _, .inf true => some .gt
  | .val _, .inf false => some .lt
  | .val p, .val q => some (compare p q)

/-- Models `f32 == f32` (`PartialEq`): NaN is equal to nothing. -/
def F32.feq : F32 → F32 → Bool
  | .nan, _ => false
  | _, .nan => false
  | .inf a, .inf b => a == b
  | .inf _, .val _ => false
  | .val _, .inf _ => false
  | .val p, .val q => p == q

/-- Numeric value of a digit list (all characters assumed digits). -/
def digitsVal (l : List Char) : ℕ :=
  l.foldl (fun n c => n * 10 + (c.toNat - 48)) 0

/-- Mantissa part of a float literal: `Digits ['.' Digits?] | '.' Digits`.
Returns the exact rational value. -/
def parseMantissa (cs : List Char) : Option ℚ :=
  let ip := cs.takeWhile Char.isDigit
  let r := cs.dropWhile Char.isDigit
  match r with
  | [] => if ip.isEmpty then none else some (digitsVal ip : ℚ)
  | '.' :: fp =>
    if fp.all Char.isDigit && !(ip.isEmpty && fp.isEmpty) then
      some ((digitsVal ip : ℚ) + (digitsVal fp : ℚ) / (10 : ℚ) ^ fp.length)
    else none
  | _ => none

/-- Exponent part of a float literal: empty, or `('e'|'E') Sign? Digits`. -/
def parseExponent (cs : List Char) : Option ℤ :=
  match cs with
  | [] => some 0
  | e :: r =>
    if e == 'e' || e == 'E' then
      let (neg, ds) :=
        match r with
        | '+' :: ds => (false, ds)
        | '-' :: ds => (true, ds)
        | ds => (false, ds)
      if ds.isEmpty || !ds.all Char.isDigit then none
      else some (if neg then -(digitsVal ds : ℤ) else (digitsVal ds : ℤ))
    else none

/-- Models `str::parse::<f32>` on the grammar Rust accepts:
`Sign? ( 'inf' | 'infinity' | 'nan' | Mantissa Exponent? )` with the
keywords case-insensitive.  Values are kept exact (no rounding). -/
def f32FromStr (s : String) : Option F32 :=
  let (neg, rest) :=
    match s.data with
    | '+' :: r => (false, r)
    | '-' :: r => (true, r)
    | r => (false, r)
  let low := rest.map Char.toLower
  if low = ['i', 'n', 'f'] || low = ['i', 'n', 'f', 'i', 'n', 'i', 't', 'y'] then
    some (.inf neg)
  else if low = ['n', 'a', 'n'] then
    some .nan
  else
    let mant := rest.takeWhile (fun c => !(c == 'e' || c == 'E'))
    let expp := rest.dropWhile (fun c => !(c == 'e' || c == 'E'))
    match parseMantissa mant, parseExponent expp with
    | some m, some e =>
      let v := m * (10 : ℚ) ^ e
      some (.val (if neg then -v else v))
    | _, _ => none

/-- Decimal digit string of a natural number, left-padded with zeros to
width `k`. -/
def natPad (n k : ℕ) : String :=
  let s := Nat.repr n
  String.mk (List.replicate (k - s.length) '0') ++ s

/-- Shortest exact decimal rendering of a nonnegative rational with a
finite decimal expansion (the search bound 64 covers every value a
theorem below evaluates). -/
def ratDecStr (q : ℚ) : String :=
  let n := |q|
  let sign := if q < 0 then "-" else ""
  match (List.range 65).find? (fun k => (n * (10 : ℚ) ^ k).den == 1) with
  | none => ""
  | some k =>
    let m := (n * (10 : ℚ) ^ k).num.toNat
    if k = 0 then sign ++ Nat.repr m
    else sign ++ Nat.repr (m / 10 ^ k) ++ "." ++ natPad (m % 10 ^ k) k

/-- Models `f32`'s `Display` (`to_string`): shortest decimal form that
round-trips.  On the exact rationals of this model that is the shortest
exact decimal expansion. -/
def f32ToStr : F32 → String
  | .nan => "NaN"
  | .inf true => "-inf"
  | .inf false => "inf"
  | .val q => ratDecStr q

/-! ## The `NaiveDateTime` model -/

/-- `chrono::NaiveDateTime` is modelled as a `Nat` timestamp; comparison
of timestamps models `Ord for NaiveDateTime` (chronological order). -/
abbrev DateTime := Nat

/-- Field encoding used by the date parser; strictly monotone in the
lexicographic field order, hence faithful to chronological comparison. -/
def dtEncode (y mo d h mi s : ℕ) : DateTime :=
  ((((y * 13 + mo) * 32 + d) * 24 + h) * 60 + mi) * 60 + s

/-- Days in a month, with Gregorian leap years (as `chrono` validates). -/
def daysInMonth (y mo : ℕ) : ℕ :=
  if mo = 2 then
    if y % 4 = 0 && (y % 100 ≠ 0 || y % 400 = 0) then 29 else 28
  else if mo = 4 || mo = 6 || mo = 9 || mo = 11 then 30
  else 31

/-- Models `NaiveDateTime::parse_from_str(s, "%Y-%m-%d %H:%M:%S")`:
a 4-digit year, zero-padded month/day/hour/minute/second, all fields
validated. -/
def parseDatetime (s : String) : Option DateTime :=
  match s.data with
  | [y1, y2, y3, y4, '-', m1, m2, '-', d1, d2, ' ', h1, h2, ':', n1, n2, ':', s1, s2] =>
    if [y1, y2, y3, y4, m1, m2, d1, d2, h1, h2, n1, n2, s1, s2].all Char.isDigit then
      let y := digitsVal [y1, y2, y3, y4]
      let mo := digitsVal [m1, m2]
      let d := digitsVal [d1, d2]
      let h := digitsVal [h1, h2]
      let mi := digitsVal [n1, n2]
      let se := digitsVal [s1, s2]
      if 1 ≤ mo && mo ≤ 12 && 1 ≤ d && d ≤ daysInMonth y mo
          && h ≤ 23 && mi ≤ 59 && se ≤ 59 then
        some (dtEncode y mo d h mi se)
      else none
    else none
  | _ => none

/-! ## Data model (`src/models.rs`) -/

/-- `pub type ID = i32`.  Modelled as `Int` (no arithmetic is performed
on ids, so overflow cannot arise). -/
abbrev ID := Int

/-- `AuthorModel { Id, Name }`. -/
structure AuthorModel where
  Id : ID
  Name : Option String
deriving DecidableEq

/-- `BookModel { id, title, price, bought, finished, added, AuthorFK }`. -/
structure BookModel where
  id : ID
  title : String
  price : Option F32
  bought : Option DateTime
  finished : Option DateTime
  added : Option DateTime
  AuthorFK : Option ID
deriving DecidableEq

/-- `NewBook`: the record sent to `create_book`/`update_book`. -/
structure NewBook where
  title : String
  price : Option F32
  bought : Option DateTime
  finished : Option DateTime
  added : Option DateTime
  AuthorFK : Option ID
deriving DecidableEq

/-- `BookWithAuthor { book, author }`. -/
structure BookWithAuthor where
  book : BookModel
  author : Option AuthorModel
deriving DecidableEq

/-! ## Sorting enums (`src/ui/messages.rs`) -/

/-- `enum SortField { Title, Author, Price, DateAdded }`. -/
inductive SortField where
  | title | author | price | dateAdded
deriving DecidableEq

/-- `enum SortDirection { Ascending, Descending }`. -/
inductive SortDirection where
  | ascending | descending
deriving DecidableEq

/-- `enum Tab { Books, Authors }`. -/
inductive Tab where
  | books | authors
deriving DecidableEq

/-- `enum Mode` (`src/ui/messages.rs`): `View`, `ViewDetails`, `Add`,
`Edit`, `ConfirmDelete(ID, String)`. -/
inductive Mode where
  | view
  | viewDetails
  | add
  | edit
  | confirmDelete (id : ID) (name : String)
deriving DecidableEq

/-! ## The sort engine (`sort_books`, `src/ui/utils.rs` lines 7-50) -/

/-- Sort key for `SortField::Title`: the lowercased title. -/
def titleKey (x : BookWithAuthor) : List Char :=
  lowerChars x.book.title

/-- Sort key for `SortField::Author`: the lowercased resolved author
name, the empty string when absent
(`author.and_then(|a| a.Name.clone()).unwrap_or_default()`). -/
def authorKey (x : BookWithAuthor) : List Char :=
  lowerChars ((x.author.bind AuthorModel.Name).getD "")

/-- Sort key for `SortField::Price`: `book.price.unwrap_or(0.0)`. -/
def priceKey (x : BookWithAuthor) : F32 :=
  x.book.price.getD (.val 0)

/-- The per-field comparator of `sort_books` (the `match field` block). -/
def bookFieldCmp : SortField → BookWithAuthor → BookWithAuthor → Ordering
  | .title, a, b => charsCmp (titleKey a) (titleKey b)
  | .author, a, b => charsCmp (authorKey a) (authorKey b)
  | .price, a, b => (F32.pcmp (priceKey a) (priceKey b)).getD .eq
  | .dateAdded, a, b =>
    match a.book.added, b.book.added with
    | some x, some y => compare x y
    | some _, none => .lt
    | none, some _ => .gt
    | none, none => .eq

/-- The `match direction` step: `Ascending => order`,
`Descending => order.reverse()` (`Ordering::reverse` is `swap`). -/
def dirApply : SortDirection → Ordering → Ordering
  | .ascending, o => o
  | .descending, o => o.swap

/-- The full comparator passed to `sort_by`. -/
def bookCmp (f : SortField) (d : SortDirection) (a b : BookWithAuthor) : Ordering :=
  dirApply d (bookFieldCmp f a b)

/-- The "not greater" relation of an `Ordering`-valued comparator: the
relation under which a stable sort driven by the comparator sorts. -/
def ordLE (cmp : α → α → Ordering) (a b : α) : Prop :=
  (cmp a b).isLE = true

instance (cmp : α → α → Ordering) : DecidableRel (ordLE cmp) :=
  fun a b => inferInstanceAs (Decidable ((cmp a b).isLE = true))

/-- `sort_books(books, field, direction)`: Rust's `Vec::sort_by` is a
stable sort, modelled by the (stable) `List.insertionSort`. -/
def sort_books (books : List BookWithAuthor) (field : SortField)
    (direction : SortDirection) : List BookWithAuthor :=
  List.insertionSort (ordLE (bookCmp field direction)) books

/-! ## The search predicate (`Message::PerformSearch`,
`src/ui/state.rs` lines 145-204) -/

/-- `title_match`: lowercased title contains the (lowercased) query. -/
def titleMatch (query : List Char) (b : BookWithAuthor) : Bool :=
  containsSub (lowerChars b.book.title) query

/-- `author_match`: resolved author name (when present) contains the
query; a book with no resolved author (or a nameless author) never
matches (`unwrap_or(false)`). -/
def authorMatch (query : List Char) (b : BookWithAuthor) : Bool :=
  ((b.author.bind AuthorModel.Name).map
    (fun name => containsSub (lowerChars name) query)).getD false

/-- `price_match`: when the query parses as a float, the price's string
form starts with the parsed query's string form, or the price equals the
parsed query; otherwise substring containment on the price's string form.
A book with no price never matches (`map_or(false, ..)`). -/
def priceMatch (query : List Char) (b : BookWithAuthor) : Bool :=
  match b.book.price with
  | none => false
  | some price =>
    match f32FromStr (String.mk query) with
    | some qn =>
      hasPref (f32ToStr qn).data (f32ToStr price).data || F32.feq price qn
    | none => containsSub (f32ToStr price).data query

/-- The filter predicate of `PerformSearch`:
`title_match || author_match || price_match`. -/
def bookMatches (query : List Char) (b : BookWithAuthor) : Bool :=
  titleMatch query b || authorMatch query b || priceMatch query b

/-! ## The selector widget
(`src/ui/components/searchable_dropdown.rs` lines 10-52) -/

/-- `SearchableDropdown<T>` state. -/
structure SearchableDropdown (T : Type) where
  options : List T
  selected : Option T
  search_term : String
  is_open : Bool
deriving DecidableEq

namespace SearchableDropdown

/-- `SearchableDropdown::new`. -/
def new (options : List T) (selected : Option T) : SearchableDropdown T :=
  { options := options, selected := selected, search_term := "", is_open := false }

/-- `toggle`: flip `is_open`; when now closed, clear the search term. -/
def toggle (d : SearchableDropdown T) : SearchableDropdown T :=
  let d := { d with is_open := !d.is_open }
  if !d.is_open then { d with search_term := "" } else d

/-- `close`: close and clear the search term. -/
def close (d : SearchableDropdown T) : SearchableDropdown T :=
  { d with is_open := false, search_term := "" }

/-- `search(term)`: update the live search term. -/
def search (d : SearchableDropdown T) (term : String) : SearchableDropdown T :=
  { d with search_term := term }

/-- `select(item)`: set the selection, then `close()`. -/
def select (d : SearchableDropdown T) (item : T) : SearchableDropdown T :=
  close { d with selected := some item }

end SearchableDropdown

/-! ## Application state (`src/ui/state.rs` lines 6-41)

The book record held while editing is declared `selected_book` in
`src/ui/state.rs` and `current_book` in `src/ui/mod.rs`; the handlers in
`src/ui/book_view.rs` access it as `current_book`, which is the name
used here. -/

/-- `BookshelfApp`: the state owned by the reducer. -/
structure BookshelfApp where
  current_tab : Tab
  mode : Mode
  sort_field : SortField
  sort_direction : SortDirection
  search_query : String
  search_term_displayed : String
  is_searching : Bool
  filtered_books : Option (List BookWithAuthor)
  books : List BookWithAuthor
  current_book : Option BookWithAuthor
  book_title : String
  book_price : String
  book_bought_date : String
  book_finished_date : String
  selected_author : Option AuthorModel
  author_dropdown : SearchableDropdown AuthorModel
  authors : List AuthorModel
  current_author : Option AuthorModel
  author_name : String
  author_books : List BookWithAuthor
  error : Option String
deriving DecidableEq

/-- The persistence requests a handler schedules (the payloads of the
`iced::Task::perform` calls). -/
inductive Effect where
  | loadBooksReq
  | loadAuthorsReq
  | saveBookReq (id : Option ID) (nb : NewBook)
  | deleteBookReq (id : ID)
deriving DecidableEq

/-! ## Handlers -/

/-- `Message::ApplySorting` (`src/ui/state.rs` lines 118-131): sort the
filtered collection while a search is active, the full collection
otherwise. -/
def applySorting (app : BookshelfApp) : BookshelfApp :=
  if app.is_searching then
    match app.filtered_books with
    | some fb =>
      { app with filtered_books := some (sort_books fb app.sort_field app.sort_direction) }
    | none => app
  else
    { app with books := sort_books app.books app.sort_field app.sort_direction }

/-- `Message::PerformSearch` (`src/ui/state.rs` lines 145-204). -/
def performSearch (app : BookshelfApp) : BookshelfApp :=
  if app.search_query = "" then
    { app with is_searching := false, filtered_books := none }
  else
    let app1 := { app with is_searching := true }
    match app1.current_tab with
    | .books =>
      let query := lowerChars app1.search_query
      let filtered := app1.books.filter (bookMatches query)
      let app2 := { app1 with
        filtered_books := some filtered
        search_term_displayed := app1.search_query }
      applySorting app2
    | .authors => app1

/-- `Message::ClearSearch` (`src/ui/state.rs` lines 206-212). -/
def clearSearch (app : BookshelfApp) : BookshelfApp :=
  { app with
    search_query := ""
    search_term_displayed := ""
    is_searching := false
    filtered_books := none }

/-- `handle_load_books` (`src/ui/book_view.rs` lines 11-21): schedules
the load, mutates nothing. -/
def handle_load_books (app : BookshelfApp) : BookshelfApp × List Effect :=
  (app, [.loadBooksReq])

/-- `handle_books_loaded` (`src/ui/book_view.rs` lines 195-213). -/
def handle_books_loaded (app : BookshelfApp)
    (result : Except String (List BookWithAuthor)) : BookshelfApp × List Effect :=
  match result with
  | .ok books =>
    let app1 := { app with books := books, filtered_books := none, is_searching := false }
    ({ app1 with books := sort_books app1.books app1.sort_field app1.sort_direction }, [])
  | .error e => ({ app with error := some e }, [])

/-- The `Message::BooksLoaded` arm of `BookshelfApp::update`
(`src/ui/state.rs` lines 216-223): run `handle_books_loaded`, then, when
the collection is nonempty, re-dispatch `ApplySorting`. -/
def updateBooksLoaded (app : BookshelfApp)
    (result : Except String (List BookWithAuthor)) : BookshelfApp × List Effect :=
  let (app1, eff) := handle_books_loaded app result
  if app1.books ≠ [] then (applySorting app1, eff) else (app1, eff)

/-- The local price validation of `handle_save_book`
(`src/ui/book_view.rs` lines 87-97): `none` signals the rejected save. -/
def savePrice (app : BookshelfApp) : Option (Option F32) :=
  if app.book_price = "" then some none
  else
    match f32FromStr app.book_price with
    | some p => some (some p)
    | none => none

/-- The `parse_datetime` closure of `handle_save_book`
(`src/ui/book_view.rs` lines 99-108): empty or unparseable text becomes
`None`. -/
def parseDatetimeOpt (s : String) : Option DateTime :=
  if s = "" then none else parseDatetime s

/-- `handle_save_book` (`src/ui/book_view.rs` lines 86-149).  `now` is
the value of `Local::now().naive_local()`. -/
def handle_save_book (now : DateTime) (app : BookshelfApp) : BookshelfApp × List Effect :=
  match savePrice app with
  | none => ({ app with error := some "Invalid price format" }, [])
  | some price =>
    let bought_date := parseDatetimeOpt app.book_bought_date
    let finished_date := parseDatetimeOpt app.book_finished_date
    let added_date := (app.current_book.bind (fun b => b.book.added)).getD now
    let book_id := app.current_book.map (fun b => b.book.id)
    let new_book : NewBook :=
      { title := app.book_title
        price := price
        bought := bought_date
        finished := finished_date
        added := some added_date
        AuthorFK := app.selected_author.map AuthorModel.Id }
    (app, [.saveBookReq book_id new_book])

/-- `handle_book_deleted` (`src/ui/book_view.rs` lines 215-228): return
to `View` mode, record the error if any, and reload the list in every
case (`update(Message::LoadBooks)` schedules the load request). -/
def handle_book_deleted (app : BookshelfApp)
    (result : Except String Nat) : BookshelfApp × List Effect :=
  let app1 := { app with mode := Mode.view }
  match result with
  | .ok _ => handle_load_books app1
  | .error e => handle_load_books { app1 with error := some e }

/-! ## General facts about comparator-driven stable sorting

`Vec::sort_by` sorts with respect to the relation `ordLE cmp`.  The
comparators of `sort_books` are total and antisymmetric up to `Ordering`
swap, but `SortField::Price` is not globally transitive (a NaN price
compares `Equal` to everything), so the sortedness and uniqueness lemmas
below take membership-scoped hypotheses instead of `IsTrans`/`IsAntisymm`
instances. -/

theorem ordSwap_eq_iff (o : Ordering) : o.swap = .eq ↔ o = .eq := by
  cases o <;> decide

theorem ordSwap_swap (o : Ordering) : o.swap.swap = o := by
  cases o <;> rfl

theorem ordLE_total_of_swap {α : Type} {cmp : α → α → Ordering}
    (hswap : ∀ a b, cmp b a = (cmp a b).swap) (a b : α) :
    ordLE cmp a b ∨ ordLE cmp b a := by
  unfold ordLE
  rw [hswap a b]
  cases h : cmp a b <;> decide

theorem ordLE_eq_of_both_of_swap {α : Type} {cmp : α → α → Ordering}
    (hswap : ∀ a b, cmp b a = (cmp a b).swap) {a b : α}
    (h1 : ordLE cmp a b) (h2 : ordLE cmp b a) : cmp a b = .eq := by
  unfold ordLE at h1 h2
  rw [hswap a b] at h2
  cases h : cmp a b <;> rw [h] at h1 h2
  · exact absurd h2 (by decide)
  · exact absurd h1 (by decide)

/-- `orderedInsert` preserves pairwise sortedness, with transitivity
assumed only on the elements involved. -/
theorem pairwise_orderedInsert_scoped {α : Type} (r : α → α → Prop) [DecidableRel r]
    (htot : ∀ x y, r x y ∨ r y x) (a : α) :
    ∀ l : List α,
      (∀ x ∈ a :: l, ∀ y ∈ a :: l, ∀ z ∈ a :: l, r x y → r y z → r x z) →
      l.Pairwise r → (List.orderedInsert r a l).Pairwise r
  | [], _, _ => List.pairwise_singleton r a
  | b :: t, htrans, hl => by
    have hb : ∀ y ∈ t, r b y := (List.pairwise_cons.mp hl).1
    by_cases hab : r a b
    · rw [List.orderedInsert, if_pos hab]
      refine List.Pairwise.cons ?_ hl
      intro y hy
      rcases List.mem_cons.mp hy with rfl | hyt
      · exact hab
      · exact htrans a (by simp) b (by simp) y (by simp [hyt]) hab (hb y hyt)
    · rw [List.orderedInsert, if_neg hab]
      refine List.Pairwise.cons ?_ ?_
      · intro y hy
        rcases (List.mem_orderedInsert r).mp hy with rfl | hyt
        · exact (htot y b).resolve_left hab
        · exact hb y hyt
      · exact pairwise_orderedInsert_scoped r htot a t
          (fun x hx y hy z hz => htrans x (by
              rcases List.mem_cons.mp hx with rfl | hx
              · exact List.mem_cons_self _ _
              · simp [hx])
            y (by
              rcases List.mem_cons.mp hy with rfl | hy
              · exact List.mem_cons_self _ _
              · simp [hy])
            z (by
              rcases List.mem_cons.mp hz with rfl | hz
              · exact List.mem_cons_self _ _
              · simp [hz]))
          hl.of_cons

/-- `insertionSort` output is pairwise sorted, with transitivity assumed
only on the input's elements. -/
theorem pairwise_insertionSort_scoped {α : Type} (r : α → α → Prop) [DecidableRel r]
    (htot : ∀ x y, r x y ∨ r y x) :
    ∀ l : List α,
      (∀ x ∈ l, ∀ y ∈ l, ∀ z ∈ l, r x y → r y z → r x z) →
      (List.insertionSort r l).Pairwise r
  | [], _ => List.Pairwise.nil
  | a :: t, htrans => by
    rw [List.insertionSort]
    have hmem : ∀ x ∈ List.insertionSort r t, x ∈ t :=
      fun x hx => (List.perm_insertionSort r t).mem_iff.mp hx
    refine pairwise_orderedInsert_scoped r htot a (List.insertionSort r t) ?_ ?_
    · intro x hx y hy z hz
      have lift : ∀ w, w ∈ a :: List.insertionSort r t → w ∈ a :: t := by
        intro w hw
        rcases List.mem_cons.mp hw with rfl | hw
        · exact List.mem_cons_self _ _
        · exact List.mem_cons_of_mem _ (hmem w hw)
      exact htrans x (lift x hx) y (lift y hy) z (lift z hz)
    · exact pairwise_insertionSort_scoped r htot t
        (fun x hx y hy z hz =>
          htrans x (List.mem_cons_of_mem _ hx)
            y (List.mem_cons_of_mem _ hy)
            z (List.mem_cons_of_mem _ hz))

/-- Two sorted permutations of each other are equal, with antisymmetry
assumed only on the first list's elements. -/
theorem eq_of_perm_of_pairwise_scoped {α : Type} {r : α → α → Prop} :
    ∀ {l₁ l₂ : List α}, List.Perm l₁ l₂ → l₁.Pairwise r → l₂.Pairwise r →
      (∀ x ∈ l₁, ∀ y ∈ l₁, x ≠ y → r x y → r y x → False) → l₁ = l₂
  | [], l₂, hp, _, _, _ => hp.nil_eq
  | a :: t₁, [], hp, _, _, _ => absurd (hp.symm.nil_eq).symm (by simp)
  | a :: t₁, b :: t₂, hp, h1, h2, hanti => by
    by_cases hab : a = b
    · subst hab
      have ht : List.Perm t₁ t₂ := hp.cons_inv
      have := eq_of_perm_of_pairwise_scoped ht h1.of_cons h2.of_cons
        (fun x hx y hy => hanti x (List.mem_cons_of_mem _ hx) y (List.mem_cons_of_mem _ hy))
      rw [this]
    · exfalso
      have ha2 : a ∈ b :: t₂ := hp.subset (List.mem_cons_self _ _)
      have hat : a ∈ t₂ := by
        rcases List.mem_cons.mp ha2 with h | h
        · exact absurd h hab
        · exact h
      have hb1 : b ∈ a :: t₁ := hp.symm.subset (List.mem_cons_self _ _)
      have hbt : b ∈ t₁ := by
        rcases List.mem_cons.mp hb1 with h | h
        · exact absurd h.symm hab
        · exact h
      exact hanti a (List.mem_cons_self _ _) b (List.mem_cons_of_mem _ hbt) hab
        (List.rel_of_pairwise_cons h1 hbt) (List.rel_of_pairwise_cons h2 hat)

/-- Sorting by the swapped comparator is reversing the sorted order,
provided no two elements of the collection compare `Equal`. -/
theorem insertionSort_swap_eq_reverse {α : Type} (cmp : α → α → Ordering)
    (hswap : ∀ a b, cmp b a = (cmp a b).swap) (l : List α)
    (htrans : ∀ x ∈ l, ∀ y ∈ l, ∀ z ∈ l, ordLE cmp x y → ordLE cmp y z → ordLE cmp x z)
    (hne : l.Pairwise (fun a b => cmp a b ≠ .eq)) :
    List.insertionSort (ordLE (fun a b => (cmp a b).swap)) l
      = (List.insertionSort (ordLE cmp) l).reverse := by
  set cmps : α → α → Ordering := fun a b => (cmp a b).swap with hcmps
  have hswap' : ∀ a b, cmps b a = (cmps a b).swap := by
    intro a b
    show (cmp b a).swap = (cmp a b).swap.swap
    rw [hswap]
  have hflip : ∀ a b, ordLE cmps a b ↔ ordLE cmp b a := by
    intro a b
    show ((cmp a b).swap).isLE = true ↔ (cmp b a).isLE = true
    rw [hswap b a, ordSwap_swap]
  have hmemD : ∀ x ∈ List.insertionSort (ordLE cmps) l, x ∈ l :=
    fun x hx => (List.perm_insertionSort _ l).mem_iff.mp hx
  have hmemA : ∀ x ∈ List.insertionSort (ordLE cmp) l, x ∈ l :=
    fun x hx => (List.perm_insertionSort _ l).mem_iff.mp hx
  -- the two sides are permutations of each other
  have hperm : List.Perm (List.insertionSort (ordLE cmps) l)
      ((List.insertionSort (ordLE cmp) l).reverse) := by
    refine (List.perm_insertionSort _ l).trans ?_
    exact ((List.reverse_perm _).trans (List.perm_insertionSort _ l)).symm
  -- both sides are sorted with respect to `ordLE cmps`
  have hsortD : (List.insertionSort (ordLE cmps) l).Pairwise (ordLE cmps) := by
    refine pairwise_insertionSort_scoped _ (ordLE_total_of_swap hswap') l ?_
    intro x hx y hy z hz h1 h2
    exact (hflip x z).mpr
      (htrans z hz y hy x hx ((hflip y z).mp h2) ((hflip x y).mp h1))
  have hsortA : (List.insertionSort (ordLE cmp) l).Pairwise (ordLE cmp) :=
    pairwise_insertionSort_scoped _ (ordLE_total_of_swap hswap) l htrans
  have hsortArev : ((List.insertionSort (ordLE cmp) l).reverse).Pairwise (ordLE cmps) := by
    rw [List.pairwise_reverse]
    exact hsortA.imp (fun {a b} h => (hflip b a).mpr h)
  -- no ties among the elements, giving scoped antisymmetry
  have hneForall : ∀ x ∈ l, ∀ y ∈ l, x ≠ y → cmp x y ≠ .eq := by
    have hsymm : Symmetric (fun a b => cmp a b ≠ .eq) := by
      intro a b h hc
      rw [hswap a b, ordSwap_eq_iff] at hc
      exact h hc
    intro x hx y hy hxy
    exact hne.forall hsymm hx hy hxy
  refine eq_of_perm_of_pairwise_scoped hperm hsortD hsortArev ?_
  intro x hx y hy hxy h1 h2
  have hx' := hmemD x hx
  have hy' := hmemD y hy
  have heq : cmps x y = .eq := ordLE_eq_of_both_of_swap hswap' h1 h2
  have heq' : cmp x y = .eq := (ordSwap_eq_iff (cmp x y)).mp heq
  exact hneForall x hx' y hy' hxy heq'

/-! ## Properties of the field comparators -/

theorem cmpSwapLin {γ : Type*} [LinearOrder γ] (a b : γ) :
    compare b a = (compare a b).swap := by
  rcases lt_trichotomy a b with h | h | h
  · rw [compare_lt_iff_lt.mpr h, compare_gt_iff_gt.mpr h]; rfl
  · rw [compare_eq_iff_eq.mpr h, compare_eq_iff_eq.mpr h.symm]; rfl
  · rw [compare_gt_iff_gt.mpr h, compare_lt_iff_lt.mpr h]; rfl

theorem cmpLELin {γ : Type*} [LinearOrder γ] {a b : γ} :
    (compare a b).isLE = true ↔ a ≤ b := by
  have h : ((compare a b).isLE = true) ↔ compare a b ≠ .gt := by
    cases compare a b <;> decide
  rw [h, compare_le_iff_le]

theorem charsCmp_nil_isLE : ∀ z : List Char, (charsCmp [] z).isLE = true
  | [] => rfl
  | _ :: _ => rfl

theorem charsCmp_swap : ∀ x y : List Char, charsCmp y x = (charsCmp x y).swap
  | [], [] => rfl
  | [], _ :: _ => rfl
  | _ :: _, [] => rfl
  | a :: x, b :: y => by
    simp only [charsCmp]
    rw [cmpSwapLin a.toNat b.toNat]
    cases compare a.toNat b.toNat
    · rfl
    · exact charsCmp_swap x y
    · rfl

theorem charsCmp_isLE_trans : ∀ x y z : List Char,
    (charsCmp x y).isLE = true → (charsCmp y z).isLE = true →
      (charsCmp x z).isLE = true
  | [], _, z, _, _ => charsCmp_nil_isLE z
  | _ :: _, [], _, h1, _ =>
    absurd (show Ordering.gt.isLE = true from h1) (by decide)
  | _ :: _, _ :: _, [], _, h2 =>
    absurd (show Ordering.gt.isLE = true from h2) (by decide)
  | a :: x, b :: y, c :: z, h1, h2 => by
    simp only [charsCmp] at h1 h2 ⊢
    rcases hab : compare a.toNat b.toNat with _ | _ | _ <;>
      simp only [hab] at h1 <;>
      rcases hbc : compare b.toNat c.toNat with _ | _ | _ <;>
      simp only [hbc] at h2
    · rw [compare_lt_iff_lt.mpr
        (lt_trans (compare_lt_iff_lt.mp hab) (compare_lt_iff_lt.mp hbc))]
      rfl
    · rw [compare_lt_iff_lt.mpr
        (lt_of_lt_of_eq (compare_lt_iff_lt.mp hab) (compare_eq_iff_eq.mp hbc))]
      rfl
    · exact absurd h2 (by decide)
    · rw [compare_lt_iff_lt.mpr
        (lt_of_eq_of_lt (compare_eq_iff_eq.mp hab) (compare_lt_iff_lt.mp hbc))]
      rfl
    · rw [compare_eq_iff_eq.mpr
        (Eq.trans (compare_eq_iff_eq.mp hab) (compare_eq_iff_eq.mp hbc))]
      exact charsCmp_isLE_trans x y z h1 h2
    · exact absurd h2 (by decide)
    · exact absurd h1 (by decide)
    · exact absurd h1 (by decide)
    · exact absurd h1 (by decide)

theorem F32.pcmp_swap : ∀ p q : F32, F32.pcmp q p = (F32.pcmp p q).map Ordering.swap := by
  intro p q
  cases p with
  | nan =>
    cases q with
    | nan => rfl
    | inf m => cases m <;> rfl
    | val v => rfl
  | inf n =>
    cases q with
    | nan => cases n <;> rfl
    | inf m => cases n <;> cases m <;> rfl
    | val v => cases n <;> rfl
  | val u =>
    cases q with
    | nan => rfl
    | inf m => cases m <;> rfl
    | val v =>
      show some (compare v u) = some (compare u v).swap
      rw [cmpSwapLin u v]

/-- Embedding of the non-NaN `f32` values into a linear order:
`-inf` to the bottom, `inf` to the top. -/
def F32.toExt : F32 → WithBot (WithTop ℚ)
  | .nan => ⊥
  | .inf true => ⊥
  | .inf false => ((⊤ : WithTop ℚ) : WithBot (WithTop ℚ))
  | .val q => (((q : ℚ) : WithTop ℚ) : WithBot (WithTop ℚ))

theorem compare_coe_extq (p q : ℚ) :
    compare (((p : WithTop ℚ) : WithBot (WithTop ℚ)))
      (((q : WithTop ℚ) : WithBot (WithTop ℚ))) = compare p q := by
  rcases lt_trichotomy p q with h | h | h
  · rw [compare_lt_iff_lt.mpr h, compare_lt_iff_lt.mpr (by exact_mod_cast h)]
  · rw [h, compare_eq_iff_eq.mpr rfl, compare_eq_iff_eq.mpr rfl]
  · rw [compare_gt_iff_gt.mpr h, compare_gt_iff_gt.mpr (by exact_mod_cast h)]

theorem F32.pcmp_eq_compare : ∀ {p q : F32}, p ≠ .nan → q ≠ .nan →
    F32.pcmp p q = some (compare p.toExt q.toExt) := by
  intro p q hp hq
  have hbotlt : ∀ x : WithTop ℚ, (⊥ : WithBot (WithTop ℚ)) < (x : WithBot (WithTop ℚ)) :=
    fun x => WithBot.bot_lt_coe x
  have hcoelt : ∀ u : ℚ, ((u : WithTop ℚ) : WithBot (WithTop ℚ))
      < ((⊤ : WithTop ℚ) : WithBot (WithTop ℚ)) :=
    fun u => WithBot.coe_lt_coe.mpr (WithTop.coe_lt_top u)
  cases p with
  | nan => exact absurd rfl hp
  | inf n =>
    cases q with
    | nan => exact absurd rfl hq
    | inf m =>
      cases n <;> cases m <;> simp only [F32.pcmp, F32.toExt]
      · rw [compare_eq_iff_eq.mpr rfl]
      · rw [compare_gt_iff_gt.mpr (hbotlt ⊤)]
      · rw [compare_lt_iff_lt.mpr (hbotlt ⊤)]
      · rw [compare_eq_iff_eq.mpr rfl]
    | val v =>
      cases n <;> simp only [F32.pcmp, F32.toExt]
      · rw [compare_gt_iff_gt.mpr (hcoelt v)]
      · rw [compare_lt_iff_lt.mpr (hbotlt _)]
  | val u =>
    cases q with
    | nan => exact absurd rfl hq
    | inf m =>
      cases m <;> simp only [F32.pcmp, F32.toExt]
      · rw [compare_lt_iff_lt.mpr (hcoelt u)]
      · rw [compare_gt_iff_gt.mpr (hbotlt _)]
    | val v => simp only [F32.pcmp, F32.toExt, compare_coe_extq]

/-- The `SortField::DateAdded` comparator swap property. -/
theorem dateCmp_swap (a b : BookWithAuthor) :
    bookFieldCmp .dateAdded b a = (bookFieldCmp .dateAdded a b).swap := by
  show (match b.book.added, a.book.added with
    | some x, some y => compare x y
    | some _, none => Ordering.lt
    | none, some _ => Ordering.gt
    | none, none => Ordering.eq)
    = (match a.book.added, b.book.added with
    | some x, some y => compare x y
    | some _, none => Ordering.lt
    | none, some _ => Ordering.gt
    | none, none => Ordering.eq).swap
  rcases a.book.added with _ | x <;> rcases b.book.added with _ | y <;> try rfl
  show compare y x = (compare x y).swap
  exact cmpSwapLin x y

/-- The comparator of every sort field is antisymmetric up to swap;
this is the `Ordering::reverse` mirror at the comparator level. -/
theorem bookFieldCmp_swap : ∀ (f : SortField) (a b : BookWithAuthor),
    bookFieldCmp f b a = (bookFieldCmp f a b).swap := by
  intro f a b
  cases f with
  | title => exact charsCmp_swap (titleKey a) (titleKey b)
  | author => exact charsCmp_swap (authorKey a) (authorKey b)
  | price =>
    show (F32.pcmp (priceKey b) (priceKey a)).getD .eq
      = ((F32.pcmp (priceKey a) (priceKey b)).getD .eq).swap
    rw [F32.pcmp_swap]
    cases F32.pcmp (priceKey a) (priceKey b) <;> rfl
  | dateAdded => exact dateCmp_swap a b

/-- The `DateAdded` comparator is (globally) transitive on `isLE`. -/
theorem dateCmp_isLE_trans (x y z : BookWithAuthor) :
    ordLE (bookFieldCmp .dateAdded) x y → ordLE (bookFieldCmp .dateAdded) y z →
      ordLE (bookFieldCmp .dateAdded) x z := by
  unfold ordLE
  simp only [bookFieldCmp]
  rcases x.book.added with _ | dx <;> rcases y.book.added with _ | dy <;>
    rcases z.book.added with _ | dz <;> intro h1 h2
  · rfl
  · exact absurd (show Ordering.gt.isLE = true from h2) (by decide)
  · exact absurd (show Ordering.gt.isLE = true from h1) (by decide)
  · exact absurd (show Ordering.gt.isLE = true from h1) (by decide)
  · rfl
  · exact absurd (show Ordering.gt.isLE = true from h2) (by decide)
  · rfl
  · rw [cmpLELin] at h1 h2 ⊢
    exact le_trans h1 h2

/-- `bookFieldCmp .price x y = Equal` when the left key is NaN. -/
theorem priceCmp_eq_of_nan_left {x y : BookWithAuthor}
    (hx : priceKey x = .nan) : bookFieldCmp .price x y = .eq := by
  show (F32.pcmp (priceKey x) (priceKey y)).getD .eq = .eq
  rw [hx]
  rcases priceKey y with _ | b | v
  · rfl
  · cases b <;> rfl
  · rfl

/-- `bookFieldCmp .price x y = Equal` when the right key is NaN. -/
theorem priceCmp_eq_of_nan_right {x y : BookWithAuthor}
    (hy : priceKey y = .nan) : bookFieldCmp .price x y = .eq := by
  show (F32.pcmp (priceKey x) (priceKey y)).getD .eq = .eq
  rw [hy, F32.pcmp_swap]
  rcases priceKey x with _ | b | v
  · rfl
  · cases b <;> rfl
  · rfl

/-- On non-NaN keys the `Price` comparator is transitive on `isLE`. -/
theorem priceCmp_isLE_trans_nonnan {x y z : BookWithAuthor}
    (hx : priceKey x ≠ .nan) (hy : priceKey y ≠ .nan) (hz : priceKey z ≠ .nan) :
    ordLE (bookFieldCmp .price) x y → ordLE (bookFieldCmp .price) y z →
      ordLE (bookFieldCmp .price) x z := by
  unfold ordLE
  show ((F32.pcmp (priceKey x) (priceKey y)).getD .eq).isLE = true →
    ((F32.pcmp (priceKey y) (priceKey z)).getD .eq).isLE = true →
    ((F32.pcmp (priceKey x) (priceKey z)).getD .eq).isLE = true
  rw [F32.pcmp_eq_compare hx hy, F32.pcmp_eq_compare hy hz, F32.pcmp_eq_compare hx hz]
  simp only [Option.getD_some]
  rw [cmpLELin, cmpLELin, cmpLELin]
  exact le_trans

/-- Transitivity of the `Price` comparator on the members of a
collection with no `Equal`-comparing pair: such a collection contains a
NaN-priced record only if it is that record alone. -/
theorem price_trans_of_pairwise {l : List BookWithAuthor}
    (hne : l.Pairwise (fun a b => bookFieldCmp .price a b ≠ .eq)) :
    ∀ x ∈ l, ∀ y ∈ l, ∀ z ∈ l,
      ordLE (bookFieldCmp .price) x y → ordLE (bookFieldCmp .price) y z →
      ordLE (bookFieldCmp .price) x z := by
  have hforall : ∀ x ∈ l, ∀ y ∈ l, x ≠ y → bookFieldCmp .price x y ≠ .eq := by
    refine List.Pairwise.forall ?_ hne
    intro a b h hc
    rw [bookFieldCmp_swap .price a b, ordSwap_eq_iff] at hc
    exact h hc
  intro x hx y hy z hz h1 h2
  by_cases hxn : priceKey x = .nan
  · have hxy : x = y := by
      by_contra hne'
      exact hforall x hx y hy hne' (priceCmp_eq_of_nan_left hxn)
    rw [← hxy] at h2
    exact h2
  · by_cases hyn : priceKey y = .nan
    · exfalso
      by_cases hxy : x = y
      · exact hxn (by rw [hxy]; exact hyn)
      · exact hforall x hx y hy hxy (priceCmp_eq_of_nan_right hyn)
    · by_cases hzn : priceKey z = .nan
      · exfalso
        by_cases hyz : y = z
        · exact hyn (by rw [hyz]; exact hzn)
        · exact hforall y hy z hz hyz (priceCmp_eq_of_nan_right hzn)
      · exact priceCmp_isLE_trans_nonnan hxn hyn hzn h1 h2

/-- Every field comparator is transitive on the members of a collection
with no `Equal`-comparing pair (for `Title`, `Author` and `DateAdded`
even unconditionally). -/
theorem bookFieldCmp_trans_of_pairwise (f : SortField) {l : List BookWithAuthor}
    (hne : l.Pairwise (fun a b => bookFieldCmp f a b ≠ .eq)) :
    ∀ x ∈ l, ∀ y ∈ l, ∀ z ∈ l,
      ordLE (bookFieldCmp f) x y → ordLE (bookFieldCmp f) y z →
      ordLE (bookFieldCmp f) x z := by
  cases f with
  | title => exact fun x _ y _ z _ h1 h2 => charsCmp_isLE_trans _ _ _ h1 h2
  | author => exact fun x _ y _ z _ h1 h2 => charsCmp_isLE_trans _ _ _ h1 h2
  | price => exact price_trans_of_pairwise hne
  | dateAdded => exact fun x _ y _ z _ h1 h2 => dateCmp_isLE_trans x y z h1 h2

/-- Direction-applied comparator helper: a tie under the field
comparator is a tie in both directions. -/
theorem ordLE_of_fieldCmp_eq {f : SortField} (d : SortDirection)
    {x y : BookWithAuthor} (heq : bookFieldCmp f x y = .eq) :
    ordLE (bookCmp f d) x y := by
  cases d
  · show (bookFieldCmp f x y).isLE = true
    rw [heq]
    rfl
  · show ((bookFieldCmp f x y).swap).isLE = true
    rw [heq]
    rfl

/-- `DateAdded`: a missing date compares `Greater` than a present one. -/
theorem dateCmp_none_some {a b : BookWithAuthor} (ha : a.book.added = none)
    {db : DateTime} (hb : b.book.added = some db) :
    bookFieldCmp .dateAdded a b = .gt := by
  show (match a.book.added, b.book.added with
    | some x, some y => compare x y
    | some _, none => Ordering.lt
    | none, some _ => Ordering.gt
    | none, none => Ordering.eq) = .gt
  rw [ha, hb]

/-! ## Test fixtures -/

/-- Builder for a `BookWithAuthor` record. -/
def mkBookWA (id : ID) (title : String) (price : Option F32)
    (added : Option DateTime) (author : Option AuthorModel) : BookWithAuthor :=
  { book :=
      { id := id, title := title, price := price, bought := none,
        finished := none, added := added, AuthorFK := author.map AuthorModel.Id }
    author := author }

/-- Two distinct records with equal titles (a sort tie). -/
def tieBook1 : BookWithAuthor := mkBookWA 1 "a" none none none

/-- Second record of the title tie. -/
def tieBook2 : BookWithAuthor := mkBookWA 2 "a" none none none

/-! ## Claim C1 -/

/-- Claim C1, as stated, is false: `sort_books` is a stable sort in both
directions, so two records with equal keys keep their input order under
Descending as well, while the reverse of the Ascending order swaps
them.  Concretely, for two distinct records with the same title,
Descending yields `[tieBook1, tieBook2]` but the reverse of Ascending
yields `[tieBook2, tieBook1]`. -/
theorem C1_counterexample :
    sort_books [tieBook1, tieBook2] .title .descending
      ≠ (sort_books [tieBook1, tieBook2] .title .ascending).reverse := by
  decide

/-- Claim C1 (amended): for every collection in which no two records'
sort keys compare equal under the chosen field, the result of
`sort_books` with `Descending` equals the exact reverse of the result
with `Ascending`. -/
theorem C1_amended_descending_eq_reverse_ascending (f : SortField)
    (l : List BookWithAuthor)
    (hne : l.Pairwise (fun a b => bookFieldCmp f a b ≠ .eq)) :
    sort_books l f .descending = (sort_books l f .ascending).reverse :=
  insertionSort_swap_eq_reverse (bookFieldCmp f) (bookFieldCmp_swap f) l
    (bookFieldCmp_trans_of_pairwise f hne) hne

/-- Record with title "b", used to witness C1 on a tie-free collection. -/
def keyBookB : BookWithAuthor := mkBookWA 1 "b" none none none

/-- Record with title "a", used to witness C1 on a tie-free collection. -/
def keyBookA : BookWithAuthor := mkBookWA 2 "a" none none none

/-- Witness for the amended C1 at a concrete tie-free collection. -/
theorem C1_witness :
    ([keyBookB, keyBookA].Pairwise (fun a b => bookFieldCmp .title a b ≠ .eq))
    ∧ sort_books [keyBookB, keyBookA] .title .descending
      = (sort_books [keyBookB, keyBookA] .title .ascending).reverse :=
  ⟨by decide, C1_amended_descending_eq_reverse_ascending .title [keyBookB, keyBookA] (by decide)⟩

/-! ## Claim C3 -/

/-- Claim C3: `sort_books` is stable — for every collection, field and
direction, two records whose sort keys compare equal appear in the
output in their input order (stated as preservation of the two-element
sublist). -/
theorem C3_sort_books_stable (f : SortField) (d : SortDirection)
    (l : List BookWithAuthor) (x y : BookWithAuthor)
    (hsub : List.Sublist [x, y] l) (heq : bookFieldCmp f x y = .eq) :
    List.Sublist [x, y] (sort_books l f d) :=
  List.pair_sublist_insertionSort (ordLE_of_fieldCmp_eq d heq) hsub

/-- Records whose titles differ only in case: equal sort keys. -/
def caseBook1 : BookWithAuthor := mkBookWA 1 "a" none none none

/-- Second record of the case-insensitive tie. -/
def caseBook2 : BookWithAuthor := mkBookWA 2 "A" none none none

/-- Witness for C3: a case-insensitive title tie is kept in input order
even when sorting Descending. -/
theorem C3_witness :
    bookFieldCmp .title caseBook1 caseBook2 = .eq
    ∧ List.Sublist [caseBook1, caseBook2]
        (sort_books [caseBook1, caseBook2] .title .descending) :=
  ⟨by decide,
    C3_sort_books_stable .title .descending [caseBook1, caseBook2] caseBook1 caseBook2
      (List.Sublist.refl _) (by decide)⟩

/-! ## Claim C4 -/

/-- Record A of the C4 example: added 2024-01-01. -/
def c4A : BookWithAuthor := mkBookWA 1 "A" none (some (dtEncode 2024 1 1 0 0 0)) none

/-- Record B of the C4 example: no added date. -/
def c4B : BookWithAuthor := mkBookWA 2 "B" none none none

/-- Record C of the C4 example: added 2023-06-01. -/
def c4C : BookWithAuthor := mkBookWA 3 "C" none (some (dtEncode 2023 6 1 0 0 0)) none

/-- Claim C4: sorting by `DateAdded` ascending places every record with
a missing timestamp after all records with one (no record with a date
follows a record without one), and on the concrete records
A (2024-01-01), B (none), C (2023-06-01) Ascending gives `[C, A, B]`
while Descending gives the exact reverse `[B, A, C]`. -/
theorem C4_dateAdded_missing_last :
    (∀ l : List BookWithAuthor,
      (sort_books l .dateAdded .ascending).Pairwise
        (fun x y => x.book.added = none → y.book.added = none))
    ∧ sort_books [c4A, c4B, c4C] .dateAdded .ascending = [c4C, c4A, c4B]
    ∧ sort_books [c4A, c4B, c4C] .dateAdded .descending = [c4B, c4A, c4C] := by
  refine ⟨?_, by decide, by decide⟩
  intro l
  have hs : (List.insertionSort (ordLE (bookFieldCmp .dateAdded)) l).Pairwise
      (ordLE (bookFieldCmp .dateAdded)) :=
    pairwise_insertionSort_scoped _ (ordLE_total_of_swap (bookFieldCmp_swap .dateAdded)) l
      (fun x _ y _ z _ => dateCmp_isLE_trans x y z)
  refine List.Pairwise.imp ?_ hs
  intro a b h
  intro hnone
  rcases hbs : b.book.added with _ | db
  · rfl
  · exfalso
    have hgt : bookFieldCmp .dateAdded a b = .gt := dateCmp_none_some hnone hbs
    have : (bookFieldCmp .dateAdded a b).isLE = true := h
    rw [hgt] at this
    exact absurd this (by decide)

/-- Witness for C4's universal part at a concrete collection. -/
theorem C4_witness :
    (sort_books [c4B, c4A] .dateAdded .ascending).Pairwise
      (fun x y => x.book.added = none → y.book.added = none) :=
  C4_dateAdded_missing_last.1 [c4B, c4A]

/-! ## Claim C9 -/

/-- Claim C9: for every dropdown state and item, `select(item)` leaves
the widget closed, with an empty search term and the given item
selected, regardless of the prior open/closed state and search term. -/
theorem C9_select_closes_and_clears {T : Type} (d : SearchableDropdown T) (item : T) :
    (d.select item).is_open = false
    ∧ (d.select item).search_term = ""
    ∧ (d.select item).selected = some item :=
  ⟨rfl, rfl, rfl⟩

/-! ## Claim C5 -/

/-- Book priced 41.99 of the C5 example. -/
def c5Book1 : BookWithAuthor := mkBookWA 1 "x" (some (.val (4199 / 100))) none none

/-- Book priced 5.00 of the C5 example. -/
def c5Book2 : BookWithAuthor := mkBookWA 2 "y" (some (.val 5)) none none

section RatUnseal

attribute [local semireducible] Rat.mul Rat.add Rat.sub Rat.inv

/-- Claim C5: on books priced 41.99 and 5.00, the price predicate of the
search matches "41" only against 41.99, "5" only against 5.00, and
"abc" against neither; and a book with no resolved author never matches
a non-empty query through the author-name predicate. -/
theorem C5_search_predicate :
    priceMatch (lowerChars "41") c5Book1 = true
    ∧ priceMatch (lowerChars "41") c5Book2 = false
    ∧ priceMatch (lowerChars "5") c5Book1 = false
    ∧ priceMatch (lowerChars "5") c5Book2 = true
    ∧ priceMatch (lowerChars "abc") c5Book1 = false
    ∧ priceMatch (lowerChars "abc") c5Book2 = false
    ∧ (∀ (q : List Char) (b : BookWithAuthor), q ≠ [] → b.author = none →
        authorMatch q b = false) := by
  refine ⟨by decide, by decide, by decide, by decide, by decide, by decide, ?_⟩
  intro q b _ hb
  unfold authorMatch
  rw [hb]
  rfl

end RatUnseal

/-- Book with no resolved author, for the C5 witness. -/
def c5NoAuthorBook : BookWithAuthor := mkBookWA 3 "z" none none none

/-- Witness for C5's author-predicate part at a concrete book/query. -/
theorem C5_witness : authorMatch (lowerChars "x") c5NoAuthorBook = false :=
  C5_search_predicate.2.2.2.2.2.2 (lowerChars "x") c5NoAuthorBook (by decide) rfl

/-! ## Claim C10 -/

/-- Claim C10: the `Price` comparator is total on every pair of records
(`isLE` holds in one direction or the other), any pair whose keys are
incomparable under `partial_cmp` is compared `Equal`, a missing price is
compared as the key `0.0`, the save-time validation accepts the string
"NaN" as a price (it parses as a float), and sorting by `Price` is a
total function on every collection (the output always has the input's
length). -/
theorem C10_price_comparator_total :
    (∀ a b : BookWithAuthor,
      (bookFieldCmp .price a b).isLE = true ∨ (bookFieldCmp .price b a).isLE = true)
    ∧ (∀ a b : BookWithAuthor, F32.pcmp (priceKey a) (priceKey b) = none →
        bookFieldCmp .price a b = .eq)
    ∧ (∀ a : BookWithAuthor, a.book.price = none → priceKey a = .val 0)
    ∧ f32FromStr "NaN" = some F32.nan
    ∧ (∀ (app : BookshelfApp), app.book_price = "NaN" →
        savePrice app = some (some F32.nan))
    ∧ (∀ (l : List BookWithAuthor) (d : SortDirection),
        (sort_books l .price d).length = l.length) := by
  refine ⟨?_, ?_, ?_, by decide, ?_, ?_⟩
  · exact fun a b => ordLE_total_of_swap (bookFieldCmp_swap .price) a b
  · intro a b h
    show (F32.pcmp (priceKey a) (priceKey b)).getD .eq = .eq
    rw [h]
    rfl
  · intro a h
    unfold priceKey
    rw [h]
    rfl
  · intro app h
    unfold savePrice
    rw [h, if_neg (by decide), show f32FromStr "NaN" = some F32.nan from by decide]
  · intro l d
    exact (List.perm_insertionSort _ l).length_eq

/-- Book with a NaN price (as the save-time validation admits). -/
def c10NanBook : BookWithAuthor := mkBookWA 7 "n" (some F32.nan) none none

/-- Book with no price, for the C10 witness. -/
def c10FreeBook : BookWithAuthor := mkBookWA 8 "f" none none none

/-- Witness for C10's conditional parts at concrete records. -/
theorem C10_witness :
    bookFieldCmp .price c10NanBook c10FreeBook = .eq
    ∧ priceKey c10FreeBook = .val 0 :=
  ⟨C10_price_comparator_total.2.1 c10NanBook c10FreeBook (by decide),
    C10_price_comparator_total.2.2.1 c10FreeBook rfl⟩

/-! ## Application fixtures -/

/-- The initial state of `BookshelfApp::new` (`src/ui/state.rs`
lines 44-68). -/
def newApp : BookshelfApp :=
  { current_tab := .books
    mode := .view
    sort_field := .title
    sort_direction := .ascending
    search_query := ""
    search_term_displayed := ""
    is_searching := false
    filtered_books := none
    books := []
    current_book := none
    book_title := ""
    book_price := ""
    book_bought_date := ""
    book_finished_date := ""
    selected_author := none
    author_dropdown := .new [] none
    authors := []
    current_author := none
    author_name := ""
    author_books := []
    error := none }

/-! ## Claim C6 -/

/-- Claim C6: a non-empty price text that does not parse makes
`SaveBook` fail locally — the error slot is set, no request is issued
and nothing else (in particular the `Add`/`Edit` mode) changes; whereas
a non-empty unparseable date text is silently treated as absent and the
save request is still issued. -/
theorem C6_save_validation :
    (∀ (now : DateTime) (app : BookshelfApp),
      app.book_price ≠ "" → f32FromStr app.book_price = none →
      handle_save_book now app = ({ app with error := some "Invalid price format" }, []))
    ∧ (∀ (now : DateTime) (app : BookshelfApp) (p : Option F32),
      savePrice app = some p →
      app.book_bought_date ≠ "" → parseDatetime app.book_bought_date = none →
      handle_save_book now app
        = (app, [Effect.saveBookReq (app.current_book.map (fun b => b.book.id))
            { title := app.book_title
              price := p
              bought := none
              finished := parseDatetimeOpt app.book_finished_date
              added := some ((app.current_book.bind (fun b => b.book.added)).getD now)
              AuthorFK := app.selected_author.map AuthorModel.Id }])) := by
  constructor
  · intro now app h1 h2
    unfold handle_save_book savePrice
    rw [if_neg h1, h2]
  · intro now app p hp hd1 hd2
    unfold handle_save_book
    rw [hp]
    have hb : parseDatetimeOpt app.book_bought_date = none := by
      unfold parseDatetimeOpt
      rw [if_neg hd1, hd2]
    rw [hb]

/-- State attempting to save a book with the unparseable price "abc". -/
def c6AppBadPrice : BookshelfApp :=
  { newApp with mode := .add, book_title := "t", book_price := "abc" }

/-- State attempting to save a book with the unparseable bought date
"toast" and an empty price. -/
def c6AppBadDate : BookshelfApp :=
  { newApp with mode := .add, book_title := "t", book_bought_date := "toast" }

/-- Witness for C6 at concrete states: the bad price is rejected with no
request and unchanged mode; the bad date is cleared and the create
request is still issued. -/
theorem C6_witness :
    handle_save_book 0 c6AppBadPrice
      = ({ c6AppBadPrice with error := some "Invalid price format" }, [])
    ∧ handle_save_book 0 c6AppBadDate
      = (c6AppBadDate, [Effect.saveBookReq (c6AppBadDate.current_book.map (fun b => b.book.id))
          { title := c6AppBadDate.book_title
            price := none
            bought := none
            finished := parseDatetimeOpt c6AppBadDate.book_finished_date
            added := some ((c6AppBadDate.current_book.bind (fun b => b.book.added)).getD 0)
            AuthorFK := c6AppBadDate.selected_author.map AuthorModel.Id }]) :=
  ⟨C6_save_validation.1 0 c6AppBadPrice (by decide) (by decide),
    C6_save_validation.2 0 c6AppBadDate none (by decide) (by decide) (by decide)⟩

/-! ## Claim C7 -/

/-- Claim C7: whatever the prior state and whether the delete succeeded
or failed, `BookDeleted` leaves the mode at `View` (never
`ConfirmDelete`), schedules exactly one list reload, and records the
error message when the delete failed. -/
theorem C7_book_deleted_returns_to_view (app : BookshelfApp) (result : Except String Nat) :
    (handle_book_deleted app result).1.mode = Mode.view
    ∧ (handle_book_deleted app result).2 = [Effect.loadBooksReq]
    ∧ (handle_book_deleted app result).1.error
        = (match result with | .ok _ => app.error | .error e => some e) := by
  cases result <;> exact ⟨rfl, rfl, rfl⟩

/-! ## Claim C8 -/

/-- Book that exists in the store but has no `added` timestamp. -/
def c8Book : BookWithAuthor := mkBookWA 5 "t" none none none

/-- State editing `c8Book` (a current record is held). -/
def c8App : BookshelfApp :=
  { newApp with mode := .edit, current_book := some c8Book, book_title := "t" }

/-- Claim C8, as stated, is false: when the edited record has no
`added` timestamp, the save issues a record whose `added` is the
current time (`Some 99` here), not the record's prior `added` (`None`) —
so this edit does modify the `added` field. -/
theorem C8_counterexample :
    (handle_save_book 99 c8App).2
      = [Effect.saveBookReq (some 5)
          { title := "t", price := none, bought := none, finished := none,
            added := some 99, AuthorFK := none }]
    ∧ c8Book.book.added ≠ some 99 := by
  exact ⟨by decide, by decide⟩

/-- Claim C8 (amended): an edit-save of a record that has an `added`
timestamp carries that timestamp through unmodified; a record without
one gets the current time instead. -/
theorem C8_amended_added_preserved (now : DateTime) (app : BookshelfApp)
    (b : BookWithAuthor) (hb : app.current_book = some b)
    (d : DateTime) (hd : b.book.added = some d)
    (p : Option F32) (hp : savePrice app = some p) :
    handle_save_book now app
      = (app, [Effect.saveBookReq (some b.book.id)
          { title := app.book_title
            price := p
            bought := parseDatetimeOpt app.book_bought_date
            finished := parseDatetimeOpt app.book_finished_date
            added := some d
            AuthorFK := app.selected_author.map AuthorModel.Id }]) := by
  unfold handle_save_book
  rw [hp, hb]
  show (app, [Effect.saveBookReq (some b.book.id)
    { title := app.book_title
      price := p
      bought := parseDatetimeOpt app.book_bought_date
      finished := parseDatetimeOpt app.book_finished_date
      added := some ((b.book.added).getD now)
      AuthorFK := app.selected_author.map AuthorModel.Id }]) = _
  rw [hd]
  rfl

/-- Book with an `added` timestamp, for the C8 witness. -/
def c8KeptBook : BookWithAuthor := mkBookWA 6 "k" none (some 42) none

/-- State editing `c8KeptBook`. -/
def c8KeptApp : BookshelfApp :=
  { newApp with mode := .edit, current_book := some c8KeptBook, book_title := "k" }

/-- Witness for the amended C8: editing a record added at time 42 and
saving at time 99 issues a record still added at 42. -/
theorem C8_witness :
    handle_save_book 99 c8KeptApp
      = (c8KeptApp, [Effect.saveBookReq (some 6)
          { title := "k"
            price := none
            bought := parseDatetimeOpt c8KeptApp.book_bought_date
            finished := parseDatetimeOpt c8KeptApp.book_finished_date
            added := some 42
            AuthorFK := none }]) := by
  have h := C8_amended_added_preserved 99 c8KeptApp c8KeptBook rfl 42 rfl none (by decide)
  exact h

/-! ## Claim C2 -/

/-- Characterization of `PerformSearch` on the Books tab with a
non-empty query: the filtered view becomes exactly the matches of the
(lowercased) query in the current collection, sorted by the current
field and direction. -/
theorem performSearch_filtered (s : BookshelfApp) (hq : s.search_query ≠ "")
    (ht : s.current_tab = Tab.books) :
    (performSearch s).filtered_books
      = some (sort_books (s.books.filter (bookMatches (lowerChars s.search_query)))
          s.sort_field s.sort_direction) := by
  rcases s with ⟨tab, md, sf, sd, sq, std, iss, fb, bks, cb, bt, bp, bbd, bfd, sa, ad, aus, ca, an, abks, er⟩
  cases ht
  unfold performSearch applySorting
  rw [if_neg hq]
  rfl

/-- The collection contents after a successful `BooksLoaded` reload
(sorted once by `handle_books_loaded`, and a second time by the
re-dispatched `ApplySorting` when nonempty). -/
def reloadedBooks (app : BookshelfApp) (books : List BookWithAuthor) : List BookWithAuthor :=
  let b1 := sort_books books app.sort_field app.sort_direction
  if b1 ≠ [] then sort_books b1 app.sort_field app.sort_direction else b1

/-- State equation for the `BooksLoaded(Ok)` update. -/
theorem updateBooksLoaded_ok (app : BookshelfApp) (books : List BookWithAuthor) :
    updateBooksLoaded app (.ok books)
      = ({ app with
            books := reloadedBooks app books
            filtered_books := none
            is_searching := false }, []) := by
  unfold updateBooksLoaded handle_books_loaded applySorting reloadedBooks
  dsimp only
  split
  · rfl
  · rfl

/-- State whose search is active when a reload completes. -/
def c2App : BookshelfApp :=
  { newApp with
    is_searching := true
    search_query := "a"
    search_term_displayed := "a"
    filtered_books := some [] }

/-- Claim C2, as stated, is false: `handle_books_loaded` resets the
search on every successful reload (`is_searching = false`,
`filtered_books = None`), so a search active when `BooksLoaded(Ok)`
arrives does not remain active. -/
theorem C2_counterexample :
    c2App.is_searching = true
    ∧ (updateBooksLoaded c2App (.ok [])).1.is_searching = false := by
  exact ⟨rfl, by decide⟩

/-- Claim C2 (amended): a successful `BooksLoaded` reload deactivates
the search (`is_searching` becomes false and the filtered collection is
dropped) instead of keeping it active, but it leaves the stored query
text untouched, so re-running `PerformSearch` with that stored query
over the reloaded collection reproduces the filtered-and-sorted matches
of the query — the same membership a fresh search would produce. -/
theorem C2_amended_reload_deactivates_search (app : BookshelfApp)
    (books : List BookWithAuthor) :
    (updateBooksLoaded app (.ok books)).1.is_searching = false
    ∧ (updateBooksLoaded app (.ok books)).1.filtered_books = none
    ∧ (updateBooksLoaded app (.ok books)).1.search_query = app.search_query
    ∧ (updateBooksLoaded app (.ok books)).1.search_term_displayed
        = app.search_term_displayed
    ∧ (app.search_query ≠ "" → app.current_tab = Tab.books →
        (performSearch (updateBooksLoaded app (.ok books)).1).filtered_books
          = some (sort_books
              (((updateBooksLoaded app (.ok books)).1.books).filter
                (bookMatches (lowerChars app.search_query)))
              app.sort_field app.sort_direction)) := by
  rw [updateBooksLoaded_ok]
  refine ⟨rfl, rfl, rfl, rfl, ?_⟩
  intro hq ht
  exact performSearch_filtered _ hq ht

/-- Book matching the stored query "a", for the C2 witness. -/
def c2WitBook : BookWithAuthor := mkBookWA 9 "abc" none none none

/-- Witness for the amended C2: reloading `[c2WitBook]` while the query
"a" is stored deactivates the search, and re-running the search then
filters and sorts the reloaded collection by that query. -/
theorem C2_witness :
    (updateBooksLoaded c2App (.ok [c2WitBook])).1.is_searching = false
    ∧ (performSearch (updateBooksLoaded c2App (.ok [c2WitBook])).1).filtered_books
        = some (sort_books
            (((updateBooksLoaded c2App (.ok [c2WitBook])).1.books).filter
              (bookMatches (lowerChars c2App.search_query)))
            c2App.sort_field c2App.sort_direction) :=
  ⟨(C2_amended_reload_deactivates_search c2App [c2WitBook]).1,
    (C2_amended_reload_deactivates_search c2App [c2WitBook]).2.2.2.2
      (by decide) rfl⟩

end Bookshelf
